import Mathlib

/-!
Verification development for the Repetitive-Task-Agent repository.

The embedding below translates the batch-execution core of `src/app/tools.py`
and `src/app/utils.py` into Lean:

* the status register (session state keys `user:progress`, `user:total`,
  `user:elapsed_seconds`, `user:repetition_task_status`, `user:results_path`)
  and the tools `check_task_status` and `execute_task_list`;
* the background loop `_run_repetition_loop` as the ordered sequence of state
  updates it yields (each yielded dict assigns all five keys, so the state
  after an update is a function of that update alone);
* the per-item result-record construction (JSON extraction, Python
  truthiness on the parsed value, the success / parse-failure / no-response
  branches) — `json.loads` is an external library call and is passed in as
  an oracle `loads : String → Option JsonValue`;
* the aggregation of heterogeneous records into one flat table, modelling
  `pandas.DataFrame(list-of-dicts)`: column order is first-seen key order
  across records, one row per record, missing keys rendered as `none`;
* the sandboxed file tools `save_task_list` / `load_task_list` over an
  explicit filesystem map keyed by normalized absolute path, with
  `os.path.abspath` modelled as POSIX component normalization and Python's
  `str.startswith` as list prefix on the character data, exactly as
  `is_within_sandbox` uses them.
-/

namespace RepTask

/-! ### Status register (src/app/tools.py, check_task_status / execute_task_list) -/

/-- The five session-state keys the batch machinery reads and writes.
`none` models an absent key. -/
structure AgentState where
  progress : Option Nat
  total : Option Nat
  elapsed_seconds : Option Nat
  repetition_task_status : Option String
  results_path : Option String
  deriving DecidableEq

/-- The dict returned by `check_task_status` (tools.py lines 251-269). -/
structure StatusView where
  progress : Nat
  total : Nat
  elapsed_seconds : Nat
  status : String
  results_path : String
  deriving DecidableEq

/-- `check_task_status`: reads each key with its default
(`0`, `0`, `0`, `'not_started'`, `''`). -/
def check_task_status (s : AgentState) : StatusView :=
  { progress := s.progress.getD 0
    total := s.total.getD 0
    elapsed_seconds := s.elapsed_seconds.getD 0
    status := s.repetition_task_status.getD "not_started"
    results_path := s.results_path.getD "" }

/-- The ordering of phases used by the spec:
not_started < initiated < running < completed. -/
def phaseRank (s : String) : Nat :=
  if s = "not_started" then 0
  else if s = "initiated" then 1
  else if s = "running" then 2
  else if s = "completed" then 3
  else 0

/-- One `progress_update` dict yielded by `_run_repetition_loop`: every yield
assigns all five keys. -/
structure StateUpdate where
  progress : Nat
  total : Nat
  elapsed_seconds : Nat
  repetition_task_status : String
  results_path : String
  deriving DecidableEq

/-- `tool_context.state.update(progress_update)`: each yielded dict carries all
five keys, so the whole status portion of the state is overwritten. -/
def applyUpdate (s : AgentState) (u : StateUpdate) : AgentState :=
  { s with
    progress := some u.progress
    total := some u.total
    elapsed_seconds := some u.elapsed_seconds
    repetition_task_status := some u.repetition_task_status
    results_path := some u.results_path }

/-- The state determined by one update dict (all five keys present). -/
def stateOfUpdate (u : StateUpdate) : AgentState :=
  ⟨some u.progress, some u.total, some u.elapsed_seconds,
   some u.repetition_task_status, some u.results_path⟩

/-- The relative results location `os.path.join("results", basename + ".csv")`
recorded by the final update of `_run_repetition_loop` (tools.py line 406). -/
def resultsRelPath (basename : String) : String :=
  "results/" ++ basename ++ ".csv"

/-- The per-item update yielded after processing item `idx`
(tools.py lines 395-402): progress `idx+1`, status `'running'`,
results path cleared. `elapsed` is the wall-clock reading, left abstract. -/
def progressUpdate (idx total elapsed : Nat) : StateUpdate :=
  ⟨idx + 1, total, elapsed, "running", ""⟩

/-- The final update yielded after the aggregate CSV is written
(tools.py lines 410-417). -/
def finalUpdate (total elapsed : Nat) (basename : String) : StateUpdate :=
  ⟨total, total, elapsed, "completed", resultsRelPath basename⟩

/-- The full ordered sequence of updates `_run_repetition_loop` yields for a
work list of length `n`: one running update per item, then the completion
update. `el idx` is the elapsed reading after item `idx`; `fe` the final one. -/
def loopUpdates (n : Nat) (el : Nat → Nat) (fe : Nat) (basename : String) :
    List StateUpdate :=
  (List.range n).map (fun idx => progressUpdate idx n (el idx)) ++
    [finalUpdate n fe basename]

/-- All states observable from a start state while a list of updates is applied
in order: the start state, then the state after each successive update. -/
def statesFrom (s : AgentState) : List StateUpdate → List AgentState
  | [] => [s]
  | u :: us => s :: statesFrom (applyUpdate s u) us

/-- The synchronous initialization performed by `execute_task_list`
(tools.py lines 446-450) before the loop is scheduled: it assigns
`user:progress`, `user:total`, `user:elapsed_seconds` and
`user:repetition_task_status`, and leaves `user:results_path` untouched. -/
def execInit (s : AgentState) (total : Nat) : AgentState :=
  { s with
    progress := some 0
    total := some total
    elapsed_seconds := some 0
    repetition_task_status := some "initiated" }

/-- Every state observable during one batch run over work list `xs`:
the state right after the synchronous init, then the state after each update
yielded by `_run_repetition_loop`. -/
def runStates (s0 : AgentState) (xs : List String) (el : Nat → Nat) (fe : Nat)
    (basename : String) : List AgentState :=
  statesFrom (execInit s0 xs.length) (loopUpdates xs.length el fe basename)

/-- Result of `execute_task_list` (tools.py lines 421-461): either the
artifact-missing error, or the task-initiated acknowledgement together with the
loaded iterator and the synchronously initialized state (the loop itself is
scheduled in the background afterwards). -/
inductive ExecResult where
  | err (msg : String) (state : AgentState)
  | started (iterator : List String) (state : AgentState)
  deriving DecidableEq

/-- `execute_task_list`: loads the iterator artifact (modelled as the decoded
list it holds, `none` when absent/empty), then initializes the status state
synchronously and schedules the loop. -/
def execute_task_list (artifact : Option (List String)) (s : AgentState) :
    ExecResult :=
  match artifact with
  | none => .err "Could not load task list artifact." s
  | some xs => .started xs (execInit s xs.length)

/-! ### JSON values, worker outcomes and per-item records
(src/app/utils.py and tools.py lines 380-393) -/

/-- Values produced by `json.loads`. -/
inductive JsonValue where
  | null : JsonValue
  | bool : Bool → JsonValue
  | num : Int → JsonValue
  | str : String → JsonValue
  | arr : List JsonValue → JsonValue
  | obj : List (String × JsonValue) → JsonValue

/-- Python truthiness (`if result:`) on a parsed JSON value. -/
def truthy : JsonValue → Bool
  | .null => false
  | .bool b => b
  | .num n => n != 0
  | .str s => s != ""
  | .arr xs => !xs.isEmpty
  | .obj fields => !fields.isEmpty

/-- A result record: a Python dict in insertion order. -/
abbrev ResultRecord := List (String × JsonValue)

/-- Python dict assignment `r[k] = v`: replace in place when the key exists,
otherwise append at the end. -/
def setKey (r : ResultRecord) (k : String) (v : JsonValue) : ResultRecord :=
  if r.any (fun kv => kv.1 == k) then
    r.map (fun kv => if kv.1 == k then (k, v) else kv)
  else r ++ [(k, v)]

/-- Dict lookup: first entry with the given key. -/
def lookupField (r : ResultRecord) (k : String) : Option JsonValue :=
  (r.find? (fun kv => kv.1 == k)).map (fun kv => kv.2)

/-- Python `s.replace(pat, '')`: delete every left-to-right, non-overlapping
occurrence of `pat`. Fuel-based structural recursion (fuel = input length
always suffices) so the kernel can evaluate it. -/
def removeOccs (pat : List Char) : Nat → List Char → List Char
  | _, [] => []
  | 0, s => s
  | fuel + 1, c :: cs =>
      if pat.isPrefixOf (c :: cs) ∧ pat ≠ [] then
        removeOccs pat fuel (List.drop (pat.length - 1) cs)
      else c :: removeOccs pat fuel cs

/-- Python `s.replace(pat, '')` on strings. -/
def pyRemove (s pat : String) : String :=
  ⟨removeOccs pat.data s.data.length s.data⟩

/-- Drop leading whitespace. -/
def dropLeadingWs : List Char → List Char
  | [] => []
  | c :: cs => if c.isWhitespace then dropLeadingWs cs else c :: cs

/-- Python `s.strip()`: drop whitespace from both ends. -/
def pyStrip (s : String) : String :=
  ⟨(dropLeadingWs (dropLeadingWs s.data).reverse).reverse⟩

/-- `extract_json_from_model_output` (src/app/utils.py): strips markdown code
fences, trims, and hands the cleaned text to `json.loads`. `json.loads` is an
external library call, abstracted as the oracle `loads` (`none` models
`json.JSONDecodeError`, in which case the function returns `None`). -/
def extract_json_from_model_output (loads : String → Option JsonValue)
    (model_output : String) : Option JsonValue :=
  loads (pyStrip (pyRemove (pyRemove model_output "```json") "```"))

/-- The observable outcome of one sub-agent invocation inside
`_run_repetition_loop`: either no events at all, or a final response text. -/
inductive WorkerResult where
  | noResponse : WorkerResult
  | response (raw : String) : WorkerResult

/-- The record `_run_repetition_loop` appends for one item
(tools.py lines 380-393): on a truthy parsed dict, the dict with
`original_item` assigned; on a falsy or unparseable result, the parse-failure
error record retaining the raw output; on no events, the no-response error
record. A truthy non-dict parse makes `result['original_item'] = item` raise
(`none`), killing the background task. -/
def itemRecord (loads : String → Option JsonValue) (item : String) :
    WorkerResult → Option ResultRecord
  | .noResponse =>
      some [("original_item", .str item),
            ("error", .str "No response from sub-agent")]
  | .response raw =>
      match extract_json_from_model_output loads raw with
      | some j =>
          if truthy j then
            match j with
            | .obj fields => some (setKey fields "original_item" (.str item))
            | _ => none
          else
            some [("original_item", .str item),
                  ("error", .str ("Failed to parse JSON: " ++ raw))]
      | none =>
          some [("original_item", .str item),
                ("error", .str ("Failed to parse JSON: " ++ raw))]

/-- Whether an invocation outcome takes one of the two error branches. -/
def isFailure (loads : String → Option JsonValue) : WorkerResult → Bool
  | .noResponse => true
  | .response raw =>
      match extract_json_from_model_output loads raw with
      | some j => !truthy j
      | none => true

/-- The error record produced for a failing invocation. -/
def failureRecord (item : String) : WorkerResult → ResultRecord
  | .noResponse =>
      [("original_item", .str item),
       ("error", .str "No response from sub-agent")]
  | .response raw =>
      [("original_item", .str item),
       ("error", .str ("Failed to parse JSON: " ++ raw))]

/-- The ordered result collection built by `_run_repetition_loop`: one append
per (item, outcome) pair, in list order. `none` when some item's record
construction raises. -/
def collectResults (loads : String → Option JsonValue) :
    List (String × WorkerResult) → Option (List ResultRecord)
  | [] => some []
  | (item, w) :: rest =>
      match itemRecord loads item w with
      | some r => (collectResults loads rest).map (fun rs => r :: rs)
      | none => none

/-! ### Aggregation (tools.py line 408, `pd.DataFrame(results).to_csv`)
Modelled from pandas' documented list-of-dicts semantics: columns are the
union of all keys in first-seen order, one row per record in list order,
missing keys rendered as null. -/

/-- Extend a column list with the keys of one record, first-seen order,
no duplicates. -/
def addKeys (acc : List String) (r : ResultRecord) : List String :=
  r.foldl (fun acc kv => if acc.contains kv.1 then acc else acc ++ [kv.1]) acc

/-- The union of all field names across records, in first-seen order. -/
def unionKeys (rs : List ResultRecord) : List String :=
  rs.foldl addKeys []

/-- The flat table written by the aggregator: header row of column names,
then one row per record with missing fields as `none`. Total by construction:
heterogeneous key sets never make it fail. -/
def toTable (rs : List ResultRecord) :
    List String × List (List (Option JsonValue)) :=
  let cols := unionKeys rs
  (cols, rs.map (fun r => cols.map (fun k => lookupField r k)))

/-! ### Paths, sandbox check and the file tools
(tools.py lines 23-29, 85-145, 148-172) -/

/-- Python `str.startswith`: prefix on the character data. -/
def strStartsWith (s pre : String) : Bool :=
  pre.data.isPrefixOf s.data

/-- Split a character list on `'/'`. -/
def splitOnSlash : List Char → List (List Char)
  | [] => [[]]
  | c :: cs =>
      match splitOnSlash cs with
      | [] => [[]]
      | h :: t => if c = '/' then [] :: h :: t else (c :: h) :: t

/-- One step of POSIX path normalization: drop empty and `.` components,
`..` pops the previous component (a no-op at the root). -/
def normStep (acc : List (List Char)) (comp : List Char) : List (List Char) :=
  if comp = [] ∨ comp = ['.'] then acc
  else if comp = ['.', '.'] then acc.dropLast
  else acc ++ [comp]

/-- Render normalized components back into an absolute path string. -/
def renderAbs : List (List Char) → List Char
  | [] => ['/']
  | [c] => '/' :: c
  | c :: c2 :: rest => '/' :: c ++ renderAbs (c2 :: rest)

/-- `os.path.abspath` on an absolute input: split on `/`, resolve `.` and
`..`, re-render. -/
def abspath (p : String) : String :=
  ⟨renderAbs ((splitOnSlash p.data).foldl normStep [])⟩

/-- The sandbox root (`os.path.abspath(os.path.join(dirname(__file__),
"sandbox"))`), a fixed absolute directory modelled by a representative value. -/
def SANDBOX_ROOT : String := "/app/sandbox"

/-- `is_within_sandbox` (tools.py lines 26-29): normalizes the path and tests
`abs_path.startswith(SANDBOX_ROOT)` — a plain string-prefix test. -/
def is_within_sandbox (path : String) : Bool :=
  strStartsWith (abspath path) SANDBOX_ROOT

/-- `os.path.join` for the call shapes used here: an absolute second argument
replaces the first, otherwise the parts are joined with `/`. -/
def pathJoin (a b : String) : String :=
  if strStartsWith b "/" then b else ⟨a.data ++ '/' :: b.data⟩

/-- The task-list directory `os.path.join(SANDBOX_ROOT, "task_lists")`. -/
def taskListDir : String := pathJoin SANDBOX_ROOT "task_lists"

/-- A stored tabular file: the physical rows of cells, header included. -/
abbrev Csv := List (List String)

/-- The filesystem visible to the tools, keyed by normalized absolute path. -/
abbrev FS := List (String × Csv)

/-- File lookup at a normalized absolute path. -/
def fsGet (fs : FS) (p : String) : Option Csv :=
  (List.lookup p fs : Option Csv)

/-- Writing a file (the OS resolves the path, so keys are normalized). -/
def fsSet (fs : FS) (p : String) (c : Csv) : FS :=
  (p, c) :: fs

/-- Result of `save_task_list`. -/
inductive SaveResult where
  | ok (csv_path : String)
  | error (msg : String)
  deriving DecidableEq

/-- `save_task_list` (tools.py lines 148-172): derives
`task_lists/<basename>.csv`, rejects paths failing `is_within_sandbox`,
refuses to overwrite an existing file, otherwise writes a single-column CSV
with header `name`. -/
def save_task_list (fs : FS) (strings : List String) (basename : String) :
    SaveResult × FS :=
  let csv_path := pathJoin taskListDir (basename ++ ".csv")
  if !is_within_sandbox csv_path then
    (.error "Output path is outside of your sandbox.", fs)
  else if (fsGet fs (abspath csv_path)).isSome then
    (.error "A task list with that filename already exists.", fs)
  else
    (.ok csv_path,
     fsSet fs (abspath csv_path) (["name"] :: strings.map (fun s => [s])))

/-- Result of `load_task_list`: on success the ordered items (serialized to
the session iterator artifact) together with the returned summary
(`total_items` and the first-5 `preview`). -/
inductive LoadResult where
  | ok (items : List String) (total_items : Nat) (preview : List String)
  | error (msg : String)
  deriving DecidableEq

/-- The first cell of a row, as `df.iloc[:, 0]` reads it. -/
def firstCell (row : List String) : String := row.headD ""

/-- `load_task_list` (tools.py lines 85-145): joins the argument under the
sandbox root, rejects paths failing `is_within_sandbox` and missing files,
then `pd.read_csv`: the first physical row is consumed as the header
(`header=0` default), a zero-column file is rejected, and the items are the
first-column values of the remaining rows. -/
def load_task_list (fs : FS) (csv_path : String) : LoadResult :=
  let abs_path := abspath (pathJoin SANDBOX_ROOT csv_path)
  if !is_within_sandbox abs_path then
    .error "CSV path is outside of your sandbox."
  else
    match fsGet fs abs_path with
    | none => .error "CSV file does not exist."
    | some file =>
        match file with
        | [] => .error "No columns to parse from file"
        | hdr :: data =>
            if hdr.length = 0 then .error "CSV has no columns."
            else
              let items := data.map firstCell
              .ok items items.length (items.take 5)

/-- Modelled from the spec: "within the permitted storage root" — the path is
the root itself or lies strictly below it. The source has no such predicate;
`is_within_sandbox` is its intended implementation. -/
def underRoot (p : String) : Bool :=
  p == SANDBOX_ROOT || strStartsWith p ⟨SANDBOX_ROOT.data ++ ['/']⟩

/-! ### Lemmas about the status machine -/

theorem applyUpdate_eq (s : AgentState) (u : StateUpdate) :
    applyUpdate s u = stateOfUpdate u := rfl

theorem statesFrom_eq (us : List StateUpdate) (s : AgentState) :
    statesFrom s us = s :: us.map stateOfUpdate := by
  induction us generalizing s with
  | nil => rfl
  | cons u rest ih => simp [statesFrom, ih, applyUpdate_eq]

theorem length_runStates (s0 : AgentState) (xs : List String) (el : Nat → Nat)
    (fe : Nat) (b : String) :
    (runStates s0 xs el fe b).length = xs.length + 2 := by
  simp [runStates, statesFrom_eq, loopUpdates]

theorem runStates_ne_nil (s0 : AgentState) (xs : List String) (el : Nat → Nat)
    (fe : Nat) (b : String) : runStates s0 xs el fe b ≠ [] := by
  simp [runStates, statesFrom_eq]

/-- The status view observed at instant `i` of a run: the synchronous init at
instant 0, the per-item running updates at instants `1..n`, and the completion
update at instant `n+1`. -/
theorem runStates_view (s0 : AgentState) (xs : List String) (el : Nat → Nat)
    (fe : Nat) (b : String) (i : Nat)
    (hi : i < (runStates s0 xs el fe b).length) :
    check_task_status ((runStates s0 xs el fe b)[i]) =
      if i = 0 then
        ⟨0, xs.length, 0, "initiated", s0.results_path.getD ""⟩
      else if i ≤ xs.length then
        ⟨i, xs.length, el (i - 1), "running", ""⟩
      else
        ⟨xs.length, xs.length, fe, "completed", resultsRelPath b⟩ := by
  have hrw : runStates s0 xs el fe b =
      execInit s0 xs.length ::
        (loopUpdates xs.length el fe b).map stateOfUpdate := by
    simp [runStates, statesFrom_eq]
  have hlen : (runStates s0 xs el fe b).length = xs.length + 2 :=
    length_runStates s0 xs el fe b
  rcases i with _ | k
  · simp [hrw, check_task_status, execInit]
  · have hk : k < xs.length + 1 := by
      have := hi
      rw [hlen] at this
      omega
    have hmaplen : ((loopUpdates xs.length el fe b).map stateOfUpdate).length =
        xs.length + 1 := by
      simp [loopUpdates]
    have hk2 : k < ((loopUpdates xs.length el fe b).map stateOfUpdate).length := by
      rw [hmaplen]
      omega
    have hk3 : k < (loopUpdates xs.length el fe b).length := by
      simpa using hk2
    have hget : (runStates s0 xs el fe b)[k + 1] =
        ((loopUpdates xs.length el fe b).map stateOfUpdate)[k] := by
      simp [hrw]
    rw [hget, List.getElem_map]
    rcases Nat.lt_or_ge k xs.length with h | h
    · have hupd : (loopUpdates xs.length el fe b)[k] =
          progressUpdate k xs.length (el k) := by
        simp only [loopUpdates]
        rw [List.getElem_append_left (by simpa using h)]
        simp
      rw [hupd]
      have h1 : ¬ (k + 1 = 0) := by omega
      have h2 : k + 1 ≤ xs.length := by omega
      simp [check_task_status, stateOfUpdate, progressUpdate, h1, h2]
    · have hkeq : k = xs.length := by omega
      have hupd : (loopUpdates xs.length el fe b)[k] =
          finalUpdate xs.length fe b := by
        simp only [loopUpdates]
        rw [List.getElem_append_right (by simpa using h)]
        simp [hkeq]
      rw [hupd]
      have h1 : ¬ (k + 1 = 0) := by omega
      have h2 : ¬ (k + 1 ≤ xs.length) := by omega
      simp [check_task_status, stateOfUpdate, finalUpdate, h1, h2]

/-! ### C1 -/

/-- C1: at every observable instant of a batch run, the status query reports
progress ≤ total, and across any two observations in temporal order the
reported progress never decreases and the reported phase never moves backward
in the order not_started < initiated < running < completed. -/
theorem status_progress_le_total_and_monotone (s0 : AgentState)
    (xs : List String) (el : Nat → Nat) (fe : Nat) (b : String) (i j : Nat)
    (hi : i < (runStates s0 xs el fe b).length)
    (hj : j < (runStates s0 xs el fe b).length) (hij : i ≤ j) :
    (check_task_status ((runStates s0 xs el fe b).get ⟨i, hi⟩)).progress ≤
      (check_task_status ((runStates s0 xs el fe b).get ⟨i, hi⟩)).total ∧
    (check_task_status ((runStates s0 xs el fe b).get ⟨i, hi⟩)).progress ≤
      (check_task_status ((runStates s0 xs el fe b).get ⟨j, hj⟩)).progress ∧
    phaseRank (check_task_status ((runStates s0 xs el fe b).get ⟨i, hi⟩)).status ≤
      phaseRank (check_task_status ((runStates s0 xs el fe b).get ⟨j, hj⟩)).status := by
  have hlen : (runStates s0 xs el fe b).length = xs.length + 2 :=
    length_runStates s0 xs el fe b
  simp only [List.get_eq_getElem]
  rw [runStates_view s0 xs el fe b i hi, runStates_view s0 xs el fe b j hj]
  have hri : phaseRank "running" = 2 := rfl
  have hii : phaseRank "initiated" = 1 := rfl
  have hcc : phaseRank "completed" = 3 := rfl
  rw [hlen] at hi hj
  split_ifs <;> simp_all <;> omega

/-- C1 witness: a concrete two-item run, observed at instants 1 and 3. -/
theorem status_progress_le_total_and_monotone_witness :
    (1 < (runStates ⟨none, none, none, none, none⟩ ["a", "b"]
        (fun _ => 0) 0 "out").length) ∧
    (3 < (runStates ⟨none, none, none, none, none⟩ ["a", "b"]
        (fun _ => 0) 0 "out").length) ∧
    (1 ≤ 3) ∧
    ((check_task_status ((runStates ⟨none, none, none, none, none⟩ ["a", "b"]
        (fun _ => 0) 0 "out").get ⟨1, by decide⟩)).progress ≤
      (check_task_status ((runStates ⟨none, none, none, none, none⟩ ["a", "b"]
        (fun _ => 0) 0 "out").get ⟨1, by decide⟩)).total ∧
    (check_task_status ((runStates ⟨none, none, none, none, none⟩ ["a", "b"]
        (fun _ => 0) 0 "out").get ⟨1, by decide⟩)).progress ≤
      (check_task_status ((runStates ⟨none, none, none, none, none⟩ ["a", "b"]
        (fun _ => 0) 0 "out").get ⟨3, by decide⟩)).progress ∧
    phaseRank (check_task_status ((runStates ⟨none, none, none, none, none⟩
        ["a", "b"] (fun _ => 0) 0 "out").get ⟨1, by decide⟩)).status ≤
      phaseRank (check_task_status ((runStates ⟨none, none, none, none, none⟩
        ["a", "b"] (fun _ => 0) 0 "out").get ⟨3, by decide⟩)).status) :=
  ⟨by decide, by decide, by decide,
   status_progress_le_total_and_monotone ⟨none, none, none, none, none⟩
     ["a", "b"] (fun _ => 0) 0 "out" 1 3 (by decide) (by decide) (by decide)⟩

/-! ### C2 -/

/-- C2: for a non-empty work list, the state observed after the run has
completed (the last observable instant, right after the aggregate output is
written) reports progress = total = the work-list length, phase `completed`,
and the results location derived from the output basename, which is where the
aggregate table is written. -/
theorem completed_run_status (s0 : AgentState) (xs : List String)
    (el : Nat → Nat) (fe : Nat) (b : String) (hne : xs ≠ []) :
    (check_task_status ((runStates s0 xs el fe b).getLast
        (runStates_ne_nil s0 xs el fe b))).progress = xs.length ∧
    (check_task_status ((runStates s0 xs el fe b).getLast
        (runStates_ne_nil s0 xs el fe b))).total = xs.length ∧
    (check_task_status ((runStates s0 xs el fe b).getLast
        (runStates_ne_nil s0 xs el fe b))).status = "completed" ∧
    (check_task_status ((runStates s0 xs el fe b).getLast
        (runStates_ne_nil s0 xs el fe b))).results_path = resultsRelPath b := by
  have hlen : (runStates s0 xs el fe b).length = xs.length + 2 :=
    length_runStates s0 xs el fe b
  have hidx : xs.length + 1 < (runStates s0 xs el fe b).length := by omega
  have hlast : (runStates s0 xs el fe b).getLast
      (runStates_ne_nil s0 xs el fe b) =
      (runStates s0 xs el fe b)[xs.length + 1] := by
    rw [List.getLast_eq_getElem]
    congr 1
    omega
  rw [hlast, runStates_view s0 xs el fe b (xs.length + 1) hidx]
  have h1 : ¬ (xs.length + 1 = 0) := by omega
  have h2 : ¬ (xs.length + 1 ≤ xs.length) := by omega
  simp [h1, h2]

/-- C2 witness: a concrete one-item run. -/
theorem completed_run_status_witness :
    ((["solo"] : List String) ≠ []) ∧
    ((check_task_status ((runStates ⟨none, none, none, none, none⟩ ["solo"]
        (fun _ => 7) 9 "agg").getLast
        (runStates_ne_nil ⟨none, none, none, none, none⟩ ["solo"]
          (fun _ => 7) 9 "agg"))).progress = ["solo"].length ∧
    (check_task_status ((runStates ⟨none, none, none, none, none⟩ ["solo"]
        (fun _ => 7) 9 "agg").getLast
        (runStates_ne_nil ⟨none, none, none, none, none⟩ ["solo"]
          (fun _ => 7) 9 "agg"))).total = ["solo"].length ∧
    (check_task_status ((runStates ⟨none, none, none, none, none⟩ ["solo"]
        (fun _ => 7) 9 "agg").getLast
        (runStates_ne_nil ⟨none, none, none, none, none⟩ ["solo"]
          (fun _ => 7) 9 "agg"))).status = "completed" ∧
    (check_task_status ((runStates ⟨none, none, none, none, none⟩ ["solo"]
        (fun _ => 7) 9 "agg").getLast
        (runStates_ne_nil ⟨none, none, none, none, none⟩ ["solo"]
          (fun _ => 7) 9 "agg"))).results_path = resultsRelPath "agg") :=
  ⟨by decide,
   completed_run_status ⟨none, none, none, none, none⟩ ["solo"]
     (fun _ => 7) 9 "agg" (by decide)⟩

/-! ### C5 -/

/-- A state left behind by an earlier completed run. -/
def staleState : AgentState :=
  ⟨some 3, some 3, some 9, some "completed", some "results/old.csv"⟩

/-- C5 counterexample: starting a batch from a state left by an earlier run
initializes phase/progress/total/elapsed synchronously, but the status query
still reports the earlier run's result location — the claim's
"result_location absent — never a result_location from an earlier run" fails. -/
theorem start_leaks_prior_result_location :
    execute_task_list (some ["a", "b"]) staleState =
      .started ["a", "b"] (execInit staleState 2) ∧
    (check_task_status (execInit staleState 2)).status = "initiated" ∧
    (check_task_status (execInit staleState 2)).progress = 0 ∧
    (check_task_status (execInit staleState 2)).total = 2 ∧
    (check_task_status (execInit staleState 2)).results_path =
      "results/old.csv" ∧
    (check_task_status (execInit staleState 2)).results_path ≠ "" :=
  ⟨rfl, rfl, rfl, rfl, rfl, by decide⟩

/-- C5 (amended): the status state is initialized synchronously before the
loop is scheduled, so a status query immediately after start observes
phase=initiated (never not_started), progress=0, total = the work-list length
and elapsed=0; but result_location is not cleared at start — it retains
whatever value the state held before (possibly an earlier run's), until the
first per-item update resets it. -/
theorem start_sets_status_but_keeps_result_location (s : AgentState)
    (xs : List String) :
    execute_task_list (some xs) s = .started xs (execInit s xs.length) ∧
    (check_task_status (execInit s xs.length)).status = "initiated" ∧
    (check_task_status (execInit s xs.length)).progress = 0 ∧
    (check_task_status (execInit s xs.length)).total = xs.length ∧
    (check_task_status (execInit s xs.length)).elapsed_seconds = 0 ∧
    (check_task_status (execInit s xs.length)).results_path =
      (check_task_status s).results_path :=
  ⟨rfl, rfl, rfl, rfl, rfl, rfl⟩

/-! ### Lemmas about per-item records -/

theorem itemRecord_of_failure (loads : String → Option JsonValue)
    (item : String) (w : WorkerResult) (h : isFailure loads w = true) :
    itemRecord loads item w = some (failureRecord item w) := by
  cases w with
  | noResponse => rfl
  | response raw =>
      simp only [isFailure] at h
      simp only [itemRecord, failureRecord]
      cases hp : extract_json_from_model_output loads raw with
      | none => rfl
      | some j =>
          rw [hp] at h
          simp at h
          simp [h]

theorem collectResults_spec (loads : String → Option JsonValue)
    (ps : List (String × WorkerResult)) (rs : List ResultRecord)
    (h : collectResults loads ps = some rs) :
    rs.length = ps.length ∧
      ∀ i (hi : i < ps.length) (hri : i < rs.length),
        itemRecord loads (ps[i]).1 (ps[i]).2 = some (rs[i]) := by
  induction ps generalizing rs with
  | nil =>
      simp [collectResults] at h
      subst h
      refine ⟨rfl, ?_⟩
      intro i hi hri
      simp at hi
  | cons p rest ih =>
      obtain ⟨item, w⟩ := p
      simp only [collectResults] at h
      cases hr : itemRecord loads item w with
      | none => rw [hr] at h; simp at h
      | some r =>
          rw [hr] at h
          cases hrest : collectResults loads rest with
          | none => rw [hrest] at h; simp at h
          | some rs' =>
              rw [hrest] at h
              simp at h
              obtain ⟨hlen, hall⟩ := ih rs' hrest
              subst h
              refine ⟨by simp [hlen], ?_⟩
              intro i hi hri
              cases i with
              | zero => simpa using hr
              | succ n =>
                  simp only [List.getElem_cons_succ]
                  exact hall n (by simpa using hi) (by simpa using hri)

/-! ### C3 -/

/-- C3: when the worker invocation for item `k` fails (no events, or output
that does not parse to a truthy value), the run's result collection holds
exactly one record per item, the record at position `k` is the corresponding
error record (origin item plus the raw output for a parse failure, or the
distinct no-response marker), and the record at position `k+1` is exactly the
record determined by item `k+1`'s own invocation, unaffected by `k`'s
failure. -/
theorem per_item_failure_isolation (loads : String → Option JsonValue)
    (xs : List String) (ws : List WorkerResult) (rs : List ResultRecord)
    (hlen : ws.length = xs.length)
    (hrun : collectResults loads (xs.zip ws) = some rs)
    (k : Nat) (hk : k < xs.length) (hkw : k < ws.length) (hkr : k < rs.length)
    (hfail : isFailure loads (ws[k]) = true) :
    rs.length = xs.length ∧
    rs[k] = failureRecord (xs[k]) (ws[k]) ∧
    (∀ (h1 : k + 1 < xs.length) (h2 : k + 1 < ws.length)
        (h3 : k + 1 < rs.length),
      itemRecord loads (xs[k + 1]) (ws[k + 1]) = some (rs[k + 1])) := by
  obtain ⟨hrl, hall⟩ := collectResults_spec loads (xs.zip ws) rs hrun
  have hzlen : (xs.zip ws).length = xs.length := by
    simp [List.length_zip, hlen]
  refine ⟨by omega, ?_, ?_⟩
  · have := hall k (by omega) hkr
    rw [List.getElem_zip] at this
    simp only at this
    rw [itemRecord_of_failure loads (xs[k]) (ws[k]) hfail] at this
    exact (Option.some_inj.mp this).symm
  · intro h1 h2 h3
    have := hall (k + 1) (by omega) h3
    rw [List.getElem_zip] at this
    exact this

/-- C3 witness: a three-item run where item 0 succeeds, item 1's output fails
to parse, and item 2 produces no response. -/
theorem per_item_failure_isolation_witness :
    ((["i0", "i1", "i2"] : List String).length = 3) ∧
    (collectResults (fun s => if s = "ok" then some (.obj [("x", .num 1)]) else none)
        (List.zip ["i0", "i1", "i2"]
          [.response "ok", .response "bad", .noResponse]) =
      some [[("x", .num 1), ("original_item", .str "i0")],
            [("original_item", .str "i1"),
             ("error", .str "Failed to parse JSON: bad")],
            [("original_item", .str "i2"),
             ("error", .str "No response from sub-agent")]]) ∧
    (isFailure (fun s => if s = "ok" then some (.obj [("x", .num 1)]) else none)
        (WorkerResult.response "bad") = true) ∧
    (([[("x", .num 1), ("original_item", .str "i0")],
       [("original_item", .str "i1"),
        ("error", .str "Failed to parse JSON: bad")],
       [("original_item", .str "i2"),
        ("error", .str "No response from sub-agent")]] :
          List ResultRecord).length = 3 ∧
     ([[("x", .num 1), ("original_item", .str "i0")],
       [("original_item", .str "i1"),
        ("error", .str "Failed to parse JSON: bad")],
       [("original_item", .str "i2"),
        ("error", .str "No response from sub-agent")]] :
          List ResultRecord)[1] =
        failureRecord "i1" (.response "bad") ∧
     (∀ (h1 : 1 + 1 < (["i0", "i1", "i2"] : List String).length)
         (h2 : 1 + 1 < ([.response "ok", .response "bad", .noResponse] :
            List WorkerResult).length)
         (h3 : 1 + 1 < ([[("x", .num 1), ("original_item", .str "i0")],
            [("original_item", .str "i1"),
             ("error", .str "Failed to parse JSON: bad")],
            [("original_item", .str "i2"),
             ("error", .str "No response from sub-agent")]] :
              List ResultRecord).length),
       itemRecord (fun s => if s = "ok" then some (.obj [("x", .num 1)]) else none)
           ((["i0", "i1", "i2"] : List String)[1 + 1])
           (([.response "ok", .response "bad", .noResponse] :
              List WorkerResult)[1 + 1]) =
         some (([[("x", .num 1), ("original_item", .str "i0")],
            [("original_item", .str "i1"),
             ("error", .str "Failed to parse JSON: bad")],
            [("original_item", .str "i2"),
             ("error", .str "No response from sub-agent")]] :
              List ResultRecord)[1 + 1]))) :=
  ⟨rfl, rfl, rfl,
   per_item_failure_isolation
     (fun s => if s = "ok" then some (.obj [("x", .num 1)]) else none)
     ["i0", "i1", "i2"] [.response "ok", .response "bad", .noResponse]
     [[("x", .num 1), ("original_item", .str "i0")],
      [("original_item", .str "i1"),
       ("error", .str "Failed to parse JSON: bad")],
      [("original_item", .str "i2"),
       ("error", .str "No response from sub-agent")]]
     rfl rfl 1 (by decide) (by decide) (by decide) rfl⟩

/-! ### C10 -/

/-- C10: when the worker's final output parses successfully but to a falsy
JSON value (empty object, null, 0, empty string, empty array, false), the
loop records the parse-failure error record — origin item plus an error field
retaining the raw output — not a success record. -/
theorem falsy_parse_recorded_as_error (loads : String → Option JsonValue)
    (item raw : String) (j : JsonValue)
    (hp : extract_json_from_model_output loads raw = some j)
    (hfalsy : truthy j = false) :
    itemRecord loads item (.response raw) =
      some [("original_item", .str item),
            ("error", .str ("Failed to parse JSON: " ++ raw))] := by
  simp [itemRecord, hp, hfalsy]

/-- C10 witness: output parsing to the empty JSON object. -/
theorem falsy_parse_recorded_as_error_witness :
    (extract_json_from_model_output (fun _ => some (.obj [])) "raw" =
      some (.obj [])) ∧
    (truthy (.obj []) = false) ∧
    (itemRecord (fun _ => some (.obj [])) "it" (.response "raw") =
      some [("original_item", .str "it"),
            ("error", .str ("Failed to parse JSON: " ++ "raw"))]) :=
  ⟨rfl, rfl,
   falsy_parse_recorded_as_error (fun _ => some (.obj [])) "it" "raw"
     (.obj []) rfl rfl⟩

/-! ### Lemmas about records and aggregation -/

theorem find?_map_replace (r : List (String × JsonValue)) (k : String)
    (v : JsonValue) (hany : r.any (fun kv => kv.1 == k) = true) :
    (r.map (fun kv => if kv.1 == k then (k, v) else kv)).find?
      (fun kv => kv.1 == k) = some (k, v) := by
  induction r with
  | nil => simp at hany
  | cons a rest ih =>
      by_cases h : (a.1 == k) = true
      · rw [List.map_cons]
        simp only [h, if_true]
        exact List.find?_cons_of_pos _ (by simp)
      · have hr : rest.any (fun kv => kv.1 == k) = true := by
          simp only [List.any_cons, Bool.or_eq_true] at hany
          rcases hany with h1 | h1
          · exact absurd h1 h
          · exact h1
        rw [List.map_cons]
        simp only [h, if_false]
        rw [List.find?_cons_of_neg _ (by simp [h])]
        exact ih hr

theorem lookupField_setKey (r : ResultRecord) (k : String) (v : JsonValue) :
    lookupField (setKey r k v) k = some v := by
  unfold setKey
  split_ifs with hany
  · simp only [lookupField]
    rw [find?_map_replace r k v hany]
    rfl
  · have hnone : r.find? (fun kv => kv.1 == k) = none := by
      rw [List.find?_eq_none]
      intro x hx
      intro hcon
      exact hany (List.any_eq_true.mpr ⟨x, hx, hcon⟩)
    simp [lookupField, List.find?_append, hnone]

/-- Every record the loop produces carries the origin item in its
`original_item` field. -/
theorem itemRecord_origin (loads : String → Option JsonValue) (item : String)
    (w : WorkerResult) (r : ResultRecord) (h : itemRecord loads item w = some r) :
    lookupField r "original_item" = some (.str item) := by
  cases w with
  | noResponse =>
      simp only [itemRecord, Option.some_inj] at h
      subst h
      rfl
  | response raw =>
      simp only [itemRecord] at h
      cases hp : extract_json_from_model_output loads raw with
      | none =>
          rw [hp] at h
          simp only [Option.some_inj] at h
          subst h
          rfl
      | some j =>
          rw [hp] at h
          by_cases ht : truthy j = true
          · cases j with
            | obj fields =>
                simp [ht] at h
                subst h
                exact lookupField_setKey fields "original_item" (.str item)
            | null => simp [ht] at h
            | bool b => simp [ht] at h
            | num n => simp [ht] at h
            | str s => simp [ht] at h
            | arr xs => simp [ht] at h
          · simp [ht] at h
            subst h
            rfl

theorem mem_addKeys (acc : List String) (r : ResultRecord) (x : String)
    (hx : x ∈ acc) : x ∈ addKeys acc r := by
  induction r generalizing acc with
  | nil => simpa [addKeys] using hx
  | cons kv rest ih =>
      simp only [addKeys, List.foldl_cons] at ih ⊢
      split_ifs with hc
      · exact ih acc hx
      · exact ih (acc ++ [kv.1]) (List.mem_append_left _ hx)

theorem key_mem_addKeys (acc : List String) (r : ResultRecord) (k : String)
    (v : JsonValue) (h : (k, v) ∈ r) : k ∈ addKeys acc r := by
  induction r generalizing acc with
  | nil => simp at h
  | cons kv rest ih =>
      rcases List.mem_cons.mp h with h1 | h1
      · simp only [addKeys, List.foldl_cons]
        have hk : kv.1 = k := by rw [← h1]
        split_ifs with hc
        · refine mem_addKeys _ _ _ ?_
          rw [← hk]
          simpa using hc
        · refine mem_addKeys _ _ _ ?_
          rw [← hk]
          exact List.mem_append_right _ (by simp)
      · simp only [addKeys, List.foldl_cons]
        split_ifs with hc
        · simpa [addKeys] using ih acc h1
        · simpa [addKeys] using ih (acc ++ [kv.1]) h1

theorem mem_foldl_addKeys (rs : List ResultRecord) (acc : List String)
    (x : String) (hx : x ∈ acc) : x ∈ rs.foldl addKeys acc := by
  induction rs generalizing acc with
  | nil => simpa using hx
  | cons r rest ih => exact ih (addKeys acc r) (mem_addKeys acc r x hx)

theorem key_mem_foldl_addKeys (rs : List ResultRecord) :
    ∀ (acc : List String) (r : ResultRecord) (k : String) (v : JsonValue),
      r ∈ rs → (k, v) ∈ r → k ∈ rs.foldl addKeys acc := by
  induction rs with
  | nil =>
      intro acc r k v hr
      simp at hr
  | cons r0 rest ih =>
      intro acc r k v hr hkv
      simp only [List.foldl_cons]
      rcases List.mem_cons.mp hr with h1 | h1
      · subst h1
        exact mem_foldl_addKeys rest (addKeys acc r) k
          (key_mem_addKeys acc r k v hkv)
      · exact ih (addKeys acc r0) r k v h1 hkv

/-- The union of keys covers every key of every record. -/
theorem key_mem_unionKeys (rs : List ResultRecord) (r : ResultRecord)
    (k : String) (v : JsonValue) (hr : r ∈ rs) (hkv : (k, v) ∈ r) :
    k ∈ unionKeys rs :=
  key_mem_foldl_addKeys rs [] r k v hr hkv

/-! ### C4 -/

/-- C4: aggregation of a run's records writes exactly one row per record,
rows in the order the items were supplied (row `i` belongs to record `i`,
which carries item `i` in its `original_item` field); each row is the column
list evaluated against that record, so a field missing from a record is
rendered as `none`; the columns cover every field name of every record (in
first-seen order, by definition of `unionKeys`); and `toTable` is total, so
heterogeneous key sets never make aggregation fail. -/
theorem aggregate_one_row_per_record_in_order (loads : String → Option JsonValue)
    (xs : List String) (ws : List WorkerResult) (rs : List ResultRecord)
    (hlen : ws.length = xs.length)
    (hrun : collectResults loads (xs.zip ws) = some rs) :
    (toTable rs).2.length = rs.length ∧
    rs.length = xs.length ∧
    (∀ i (hi : i < rs.length) (hrow : i < (toTable rs).2.length),
      (toTable rs).2[i] = (toTable rs).1.map (fun k => lookupField (rs[i]) k)) ∧
    (∀ i (hi : i < rs.length) (hx : i < xs.length),
      lookupField (rs[i]) "original_item" = some (.str (xs[i]))) ∧
    (∀ r, r ∈ rs → ∀ k v, (k, v) ∈ r → k ∈ (toTable rs).1) := by
  obtain ⟨hrl, hall⟩ := collectResults_spec loads (xs.zip ws) rs hrun
  have hzlen : (xs.zip ws).length = xs.length := by
    simp [List.length_zip, hlen]
  refine ⟨by simp [toTable], by omega, ?_, ?_, ?_⟩
  · intro i hi hrow
    simp [toTable]
  · intro i hi hx
    have hwi : i < ws.length := by omega
    have h := hall i (by omega) hi
    rw [List.getElem_zip] at h
    exact itemRecord_origin loads (xs[i]) (ws[i]) (rs[i]) h
  · intro r hr k v hkv
    have : (toTable rs).1 = unionKeys rs := by simp [toTable]
    rw [this]
    exact key_mem_unionKeys rs r k v hr hkv

/-- C4 witness: a two-item run with one success and one no-response record. -/
theorem aggregate_one_row_per_record_in_order_witness :
    (([.response "ok", .noResponse] : List WorkerResult).length =
      (["a", "b"] : List String).length) ∧
    (collectResults (fun s => if s = "ok" then some (.obj [("x", .num 1)]) else none)
        (List.zip ["a", "b"] [.response "ok", .noResponse]) =
      some [[("x", .num 1), ("original_item", .str "a")],
            [("original_item", .str "b"),
             ("error", .str "No response from sub-agent")]]) ∧
    ((toTable [[("x", .num 1), ("original_item", .str "a")],
        [("original_item", .str "b"),
         ("error", .str "No response from sub-agent")]]).2.length =
      ([[("x", .num 1), ("original_item", .str "a")],
        [("original_item", .str "b"),
         ("error", .str "No response from sub-agent")]] :
          List ResultRecord).length ∧
     ([[("x", .num 1), ("original_item", .str "a")],
       [("original_item", .str "b"),
        ("error", .str "No response from sub-agent")]] :
         List ResultRecord).length = (["a", "b"] : List String).length ∧
     (∀ i (hi : i < ([[("x", .num 1), ("original_item", .str "a")],
          [("original_item", .str "b"),
           ("error", .str "No response from sub-agent")]] :
            List ResultRecord).length)
         (hrow : i < (toTable [[("x", .num 1), ("original_item", .str "a")],
          [("original_item", .str "b"),
           ("error", .str "No response from sub-agent")]]).2.length),
       (toTable [[("x", .num 1), ("original_item", .str "a")],
          [("original_item", .str "b"),
           ("error", .str "No response from sub-agent")]]).2[i] =
         (toTable [[("x", .num 1), ("original_item", .str "a")],
            [("original_item", .str "b"),
             ("error", .str "No response from sub-agent")]]).1.map
           (fun k => lookupField
             (([[("x", .num 1), ("original_item", .str "a")],
                [("original_item", .str "b"),
                 ("error", .str "No response from sub-agent")]] :
                   List ResultRecord)[i]) k)) ∧
     (∀ i (hi : i < ([[("x", .num 1), ("original_item", .str "a")],
          [("original_item", .str "b"),
           ("error", .str "No response from sub-agent")]] :
            List ResultRecord).length)
         (hx : i < (["a", "b"] : List String).length),
       lookupField (([[("x", .num 1), ("original_item", .str "a")],
          [("original_item", .str "b"),
           ("error", .str "No response from sub-agent")]] :
            List ResultRecord)[i]) "original_item" =
         some (.str ((["a", "b"] : List String)[i]))) ∧
     (∀ r, r ∈ ([[("x", .num 1), ("original_item", .str "a")],
          [("original_item", .str "b"),
           ("error", .str "No response from sub-agent")]] :
            List ResultRecord) → ∀ k v, (k, v) ∈ r →
       k ∈ (toTable [[("x", .num 1), ("original_item", .str "a")],
          [("original_item", .str "b"),
           ("error", .str "No response from sub-agent")]]).1)) :=
  ⟨rfl, rfl,
   aggregate_one_row_per_record_in_order
     (fun s => if s = "ok" then some (.obj [("x", .num 1)]) else none)
     ["a", "b"] [.response "ok", .noResponse]
     [[("x", .num 1), ("original_item", .str "a")],
      [("original_item", .str "b"),
       ("error", .str "No response from sub-agent")]]
     rfl rfl⟩

/-! ### Lemmas about paths -/

theorem pathJoin_of_abs (a b : String) (h : strStartsWith b "/" = true) :
    pathJoin a b = b := by
  simp [pathJoin, h]

theorem map_firstCell_singleton (l : List String) :
    l.map (firstCell ∘ fun s => [s]) = l := by
  induction l with
  | nil => rfl
  | cons a t ih => simp [Function.comp, firstCell, ih]

theorem renderAbs_cons_slash (cs : List (List Char)) :
    ∃ t, renderAbs cs = '/' :: t := by
  match cs with
  | [] => exact ⟨[], rfl⟩
  | [c] => exact ⟨c, rfl⟩
  | c :: c2 :: rest => exact ⟨c ++ renderAbs (c2 :: rest), rfl⟩

/-- A normalized absolute path always begins with a slash. -/
theorem strStartsWith_abspath_slash (p : String) :
    strStartsWith (abspath p) "/" = true := by
  obtain ⟨t, ht⟩ := renderAbs_cons_slash ((splitOnSlash p.data).foldl normStep [])
  have hslash : ("/" : String).data = ['/'] := rfl
  simp [strStartsWith, abspath, ht, hslash, List.isPrefixOf]

/-! ### C6 -/

/-- C6: saving N strings under a fresh basename and loading the saved source
back yields exactly the N saved items in order, and the preview is the first
five saved items (in particular, when N ≥ 5 the preview has exactly the first
five). The hypotheses say the derived location passes the sandbox check, is in
normal form, and holds no file yet. -/
theorem save_load_round_trip (fs : FS) (strings : List String)
    (basename : String)
    (hsb : is_within_sandbox (pathJoin taskListDir (basename ++ ".csv")) = true)
    (habs : abspath (pathJoin taskListDir (basename ++ ".csv")) =
      pathJoin taskListDir (basename ++ ".csv"))
    (hnew : fsGet fs (abspath (pathJoin taskListDir (basename ++ ".csv"))) =
      none) :
    (save_task_list fs strings basename).1 =
      .ok (pathJoin taskListDir (basename ++ ".csv")) ∧
    load_task_list (save_task_list fs strings basename).2
        (pathJoin taskListDir (basename ++ ".csv")) =
      .ok strings strings.length (strings.take 5) ∧
    (5 ≤ strings.length → (strings.take 5).length = 5) := by
  have hP : strStartsWith (pathJoin taskListDir (basename ++ ".csv")) "/" =
      true := by
    rw [← habs]
    exact strStartsWith_abspath_slash _
  have hjoin : pathJoin SANDBOX_ROOT (pathJoin taskListDir (basename ++ ".csv")) =
      pathJoin taskListDir (basename ++ ".csv") :=
    pathJoin_of_abs _ _ hP
  have habs2 : abspath (pathJoin SANDBOX_ROOT
      (pathJoin taskListDir (basename ++ ".csv"))) =
      pathJoin taskListDir (basename ++ ".csv") := by
    rw [hjoin, habs]
  have hwithin : is_within_sandbox (abspath (pathJoin SANDBOX_ROOT
      (pathJoin taskListDir (basename ++ ".csv")))) = true := by
    rw [habs2]
    exact hsb
  have hsave2 : (save_task_list fs strings basename).2 =
      fsSet fs (abspath (pathJoin taskListDir (basename ++ ".csv")))
        (["name"] :: strings.map (fun s => [s])) := by
    simp [save_task_list, hsb, hnew]
  refine ⟨by simp [save_task_list, hsb, hnew], ?_, ?_⟩
  · rw [hsave2]
    simp [load_task_list, habs2, habs, hsb, fsGet, fsSet, List.lookup,
      map_firstCell_singleton]
  · intro h
    simp [List.length_take]
    omega

/-- C6 witness: six items saved under basename `mylist` into an empty store. -/
theorem save_load_round_trip_witness :
    (is_within_sandbox (pathJoin taskListDir ("mylist" ++ ".csv")) = true) ∧
    (abspath (pathJoin taskListDir ("mylist" ++ ".csv")) =
      pathJoin taskListDir ("mylist" ++ ".csv")) ∧
    (fsGet ([] : FS) (abspath (pathJoin taskListDir ("mylist" ++ ".csv"))) =
      none) ∧
    ((save_task_list ([] : FS) ["p", "q", "r", "s", "t", "u"] "mylist").1 =
      .ok (pathJoin taskListDir ("mylist" ++ ".csv")) ∧
    load_task_list (save_task_list ([] : FS) ["p", "q", "r", "s", "t", "u"]
        "mylist").2 (pathJoin taskListDir ("mylist" ++ ".csv")) =
      .ok ["p", "q", "r", "s", "t", "u"]
        (["p", "q", "r", "s", "t", "u"] : List String).length
        ((["p", "q", "r", "s", "t", "u"] : List String).take 5) ∧
    (5 ≤ (["p", "q", "r", "s", "t", "u"] : List String).length →
      ((["p", "q", "r", "s", "t", "u"] : List String).take 5).length = 5)) :=
  ⟨by decide, by decide, rfl,
   save_load_round_trip ([] : FS) ["p", "q", "r", "s", "t", "u"] "mylist"
     (by decide) (by decide) rfl⟩

/-! ### C7 -/

/-- C7: saving under a basename whose derived location already holds a file
fails with the already-exists error, the store is left unchanged, and
reloading any path afterwards behaves exactly as before the attempt. -/
theorem save_existing_fails_and_preserves (fs : FS) (strings : List String)
    (basename : String) (file : Csv)
    (hsb : is_within_sandbox (pathJoin taskListDir (basename ++ ".csv")) = true)
    (hexists : fsGet fs (abspath (pathJoin taskListDir (basename ++ ".csv"))) =
      some file) :
    (save_task_list fs strings basename).1 =
      .error "A task list with that filename already exists." ∧
    (save_task_list fs strings basename).2 = fs ∧
    (∀ p, load_task_list (save_task_list fs strings basename).2 p =
      load_task_list fs p) := by
  have h2 : (fsGet fs (abspath (pathJoin taskListDir (basename ++ ".csv")))).isSome =
      true := by rw [hexists]; rfl
  refine ⟨?_, ?_, ?_⟩
  · simp [save_task_list, hsb, h2]
  · simp [save_task_list, hsb, h2]
  · intro p
    have : (save_task_list fs strings basename).2 = fs := by
      simp [save_task_list, hsb, h2]
    rw [this]

/-- C7 witness: the store already holds `task_lists/dup.csv`. -/
theorem save_existing_fails_and_preserves_witness :
    (is_within_sandbox (pathJoin taskListDir ("dup" ++ ".csv")) = true) ∧
    (fsGet [("/app/sandbox/task_lists/dup.csv", [["name"], ["old"]])]
      (abspath (pathJoin taskListDir ("dup" ++ ".csv"))) =
      some [["name"], ["old"]]) ∧
    ((save_task_list [("/app/sandbox/task_lists/dup.csv", [["name"], ["old"]])]
        ["new"] "dup").1 =
      .error "A task list with that filename already exists." ∧
    (save_task_list [("/app/sandbox/task_lists/dup.csv", [["name"], ["old"]])]
        ["new"] "dup").2 =
      [("/app/sandbox/task_lists/dup.csv", [["name"], ["old"]])] ∧
    (∀ p, load_task_list (save_task_list
        [("/app/sandbox/task_lists/dup.csv", [["name"], ["old"]])]
        ["new"] "dup").2 p =
      load_task_list [("/app/sandbox/task_lists/dup.csv", [["name"], ["old"]])]
        p)) :=
  ⟨by decide, by decide,
   save_existing_fails_and_preserves
     [("/app/sandbox/task_lists/dup.csv", [["name"], ["old"]])]
     ["new"] "dup" [["name"], ["old"]] (by decide) (by decide)⟩

/-! ### C8 -/

/-- C8: the sandbox confinement fails. `is_within_sandbox` tests
`abs_path.startswith(SANDBOX_ROOT)` with no trailing separator, so the
resolved path `/app/sandboxevil/escape.csv` — a sibling of the root, outside
the permitted storage area — passes the check, and `save_task_list` proceeds
to write there instead of failing before I/O. This contradicts both the claim
and the function's own docstring ("checks if the given path is within the
agent's sandbox directory"). -/
theorem sandbox_check_allows_sibling_escape :
    is_within_sandbox (pathJoin taskListDir
      ("../../sandboxevil/escape" ++ ".csv")) = true ∧
    abspath (pathJoin taskListDir ("../../sandboxevil/escape" ++ ".csv")) =
      "/app/sandboxevil/escape.csv" ∧
    underRoot "/app/sandboxevil/escape.csv" = false ∧
    (save_task_list ([] : FS) ["x"] "../../sandboxevil/escape").1 =
      .ok (pathJoin taskListDir ("../../sandboxevil/escape" ++ ".csv")) ∧
    fsGet (save_task_list ([] : FS) ["x"] "../../sandboxevil/escape").2
      "/app/sandboxevil/escape.csv" = some [["name"], ["x"]] :=
  ⟨by decide, by decide, by decide, by decide, by decide⟩

/-! ### C9 -/

/-- A store holding a headerless two-row file `task_lists/nh.csv` with
first-column values `alice` and `bob`. -/
def headerlessFS : FS :=
  [("/app/sandbox/task_lists/nh.csv", [["alice"], ["bob"]])]

/-- C9 counterexample: loading a headerless file does not return the file's
full first column. The first row `alice` is consumed as the header row and
dropped from the items, so load reports one item `bob` instead of the two
first-column values. -/
theorem headerless_first_value_dropped :
    load_task_list headerlessFS "task_lists/nh.csv" = .ok ["bob"] 1 ["bob"] ∧
    load_task_list headerlessFS "task_lists/nh.csv" ≠
      .ok ["alice", "bob"] 2 ["alice", "bob"] :=
  ⟨by decide, by decide⟩

/-- C9 (amended): load always treats the file's first physical row as a
header — it is never counted among the items — and returns the first-column
values of the remaining rows, verbatim and in order. For a file that begins
with a header row this is the full data column; for a headerless file the
first data value is consumed as the header and dropped. -/
theorem load_consumes_first_row_as_header (fs : FS) (csv_path : String)
    (hdr : List String) (data : List (List String))
    (hsb : is_within_sandbox (abspath (pathJoin SANDBOX_ROOT csv_path)) = true)
    (hfile : fsGet fs (abspath (pathJoin SANDBOX_ROOT csv_path)) =
      some (hdr :: data))
    (hhdr : hdr.length ≠ 0) :
    load_task_list fs csv_path =
      .ok (data.map firstCell) data.length ((data.map firstCell).take 5) := by
  simp [load_task_list, hsb, hfile, hhdr]

/-- C9 amended witness: a file with header row `name` and two data rows. -/
theorem load_consumes_first_row_as_header_witness :
    (is_within_sandbox (abspath (pathJoin SANDBOX_ROOT "task_lists/h.csv")) =
      true) ∧
    (fsGet [("/app/sandbox/task_lists/h.csv", [["name"], ["alice"], ["bob"]])]
      (abspath (pathJoin SANDBOX_ROOT "task_lists/h.csv")) =
      some (["name"] :: [["alice"], ["bob"]])) ∧
    ((["name"] : List String).length ≠ 0) ∧
    (load_task_list
        [("/app/sandbox/task_lists/h.csv", [["name"], ["alice"], ["bob"]])]
        "task_lists/h.csv" =
      .ok ([["alice"], ["bob"]].map firstCell)
        ([["alice"], ["bob"]] : List (List String)).length
        (([["alice"], ["bob"]].map firstCell).take 5)) :=
  ⟨by decide, by decide, by decide,
   load_consumes_first_row_as_header
     [("/app/sandbox/task_lists/h.csv", [["name"], ["alice"], ["bob"]])]
     "task_lists/h.csv" ["name"] [["alice"], ["bob"]]
     (by decide) (by decide) (by decide)⟩

end RepTask
